import Mathlib

/-!
Shallow embedding of the caching / background-indexing / artifact-generation
core of the l3tracker repository (src/api), together with theorems checking
the natural-language specification against the code.

Conventions of the embedding:
  * Python `dict` / `OrderedDict` instances are modelled as association
    lists `List (String × α)` in insertion order, least-recently-used first.
    Keys are unique in every reachable state; lookups return the first
    binding, deletions remove every binding of the key (identical on
    unique-key lists).
  * `time.time()` instants are modelled as `Nat` parameters threaded into
    the operations that read the clock.
  * Python `None` stored as a cache *value* is modelled by `Option.none` of
    `PyVal := Option Nat`; a cache `get` returning Python `None` (miss or
    stored `None`) is the flattened `Option Nat` result.
  * float arithmetic of the source (`* 1.2`, `* 0.8`, hit-rate comparisons
    with `0.8` / `0.5`, tenths-based TTL multipliers) is modelled by exact
    rational arithmetic over `Nat` (`* 12 / 10` etc.), which agrees with the
    double-precision source for all realistic counter/capacity magnitudes.
-/

/-- Values stored in the caches: `some n` is an ordinary payload, `none` is
Python `None` stored as a value. -/
abbrev PyVal := Option Nat

/-- First binding of `k` in an association list (Python `dict` lookup). -/
def lookupKey {α : Type} : List (String × α) → String → Option α
  | [], _ => none
  | kv :: t, k => if kv.1 = k then some kv.2 else lookupKey t k

/-- Remove the binding of `k` (Python `dict.pop(k, None)` / `del`). -/
def eraseKey {α : Type} : List (String × α) → String → List (String × α)
  | [], _ => []
  | kv :: t, k => if kv.1 = k then eraseKey t k else kv :: eraseKey t k

/-! ## AdaptiveLRUCache (src/api/cache_manager.py, lines 13-104)

State of one `AdaptiveLRUCache` instance.  The `_cache` OrderedDict is the
`cache` field, least-recently-used binding first.  Python names
`_hit_count`, `_miss_count`, `_last_resize` lose the leading underscore. -/

structure AdaptiveLRUCache where
  base_capacity : Nat
  max_capacity : Nat
  current_capacity : Nat
  cache : List (String × PyVal)
  hit_count : Nat
  miss_count : Nat
  last_resize : Nat
deriving DecidableEq

namespace AdaptiveLRUCache

/-- Constructor `AdaptiveLRUCache.__init__` at clock instant `t0`. -/
def init (base_capacity max_capacity t0 : Nat) : AdaptiveLRUCache :=
  { base_capacity := base_capacity
    max_capacity := max_capacity
    current_capacity := base_capacity
    cache := []
    hit_count := 0
    miss_count := 0
    last_resize := t0 }

/-- Method `get` (lines 28-37): on a hit, `move_to_end` and count a hit and
return the stored value; on a miss count a miss and return `None`.  A stored
Python `None` is returned as `none`, the same observable as a miss. -/
def get (s : AdaptiveLRUCache) (k : String) : PyVal × AdaptiveLRUCache :=
  match lookupKey s.cache k with
  | some v => (v, { s with cache := eraseKey s.cache k ++ [(k, v)],
                           hit_count := s.hit_count + 1 })
  | none => (none, { s with miss_count := s.miss_count + 1 })

/-- Python `while len(cache) >= cap: popitem(last=False)` (lines 45-46).
With `cap = 0` the Python loop would raise `KeyError` on the empty dict;
reachable states always have `cap ≥ 1` (see the capacity invariant). -/
def evictWhileGe : List (String × PyVal) → Nat → List (String × PyVal)
  | [], _ => []
  | kv :: t, cap => if cap ≤ (kv :: t).length then evictWhileGe t cap else kv :: t

/-- Python `while len(cache) > cap: popitem(last=False)` (lines 87-88). -/
def evictWhileGt : List (String × PyVal) → Nat → List (String × PyVal)
  | [], _ => []
  | kv :: t, cap => if cap < (kv :: t).length then evictWhileGt t cap else kv :: t

/-- Method `_adjust_capacity` (lines 65-88).  The float comparisons
`hit_rate > 0.8` and `hit_rate < 0.5` and the float products
`int(cap * 1.2)`, `int(cap * 0.8)` are modelled exactly over `Nat`. -/
def adjust_capacity (s : AdaptiveLRUCache) : AdaptiveLRUCache :=
  let total := s.hit_count + s.miss_count
  if total < 100 then s
  else if 4 * total < 5 * s.hit_count ∧ s.current_capacity < s.max_capacity then
    { s with current_capacity := min s.max_capacity (s.current_capacity * 12 / 10) }
  else if 2 * s.hit_count < total ∧ s.base_capacity < s.current_capacity then
    let cap := max s.base_capacity (s.current_capacity * 8 / 10)
    { s with current_capacity := cap, cache := evictWhileGt s.cache cap }
  else s

/-- Insertion step of method `set` (lines 39-48), before the resize check:
move-to-end / evict-then-insert, then assign the value at the recency end. -/
def setInsert (s : AdaptiveLRUCache) (k : String) (v : PyVal) : AdaptiveLRUCache :=
  if (lookupKey s.cache k).isSome then
    { s with cache := eraseKey s.cache k ++ [(k, v)] }
  else
    { s with cache := evictWhileGe s.cache s.current_capacity ++ [(k, v)] }

/-- Method `set` (lines 39-53) at clock instant `now`: insert, then run the
capacity adjustment when more than 30 seconds passed since the last resize. -/
def set (s : AdaptiveLRUCache) (k : String) (v : PyVal) (now : Nat) : AdaptiveLRUCache :=
  let s1 := setInsert s k v
  if s1.last_resize + 30 < now then
    { s1.adjust_capacity with last_resize := now }
  else s1

/-- Method `delete` (lines 55-57). -/
def delete (s : AdaptiveLRUCache) (k : String) : AdaptiveLRUCache :=
  { s with cache := eraseKey s.cache k }

/-- Method `clear` (lines 59-63): also resets both counters. -/
def clear (s : AdaptiveLRUCache) : AdaptiveLRUCache :=
  { s with cache := [], hit_count := 0, miss_count := 0 }

end AdaptiveLRUCache

/-! ## SmartTTLCache (src/api/cache_manager.py, lines 107-206)

Entries are `(expire_time, value, access_count)` triples; `_data` keeps
insertion / recency order, oldest first.  The Python name `_last_cleanup`
loses the leading underscore. -/

structure SmartTTLCache where
  default_ttl : Nat
  capacity : Nat
  data : List (String × (Nat × PyVal × Nat))
  last_cleanup : Nat
deriving DecidableEq

namespace SmartTTLCache

/-- Constructor `SmartTTLCache.__init__` at clock instant `t0`. -/
def init (default_ttl capacity t0 : Nat) : SmartTTLCache :=
  { default_ttl := default_ttl, capacity := capacity, data := [], last_cleanup := t0 }

/-- Method `_cleanup_expired` (lines 177-186): drop every entry with
`expire_time < now`. -/
def cleanupExpired (l : List (String × (Nat × PyVal × Nat))) (now : Nat) :
    List (String × (Nat × PyVal × Nat)) :=
  l.filter (fun kv => decide (now ≤ kv.2.1))

/-- Method `get` (lines 119-150) at clock instant `now`.  An entry with
`expire_time < now` is deleted and reported as a miss; otherwise the access
counter is bumped, popular entries (count > 10) get their expiry extended by
`default_ttl × min(3.0, 1 + 0.1·(count−10))` (modelled in exact tenths), the
entry moves to the recency end, and the throttled sweep may run. -/
def get (s : SmartTTLCache) (k : String) (now : Nat) : PyVal × SmartTTLCache :=
  match lookupKey s.data k with
  | none => (none, s)
  | some (expire_time, value, access_count) =>
    if expire_time < now then
      (none, { s with data := eraseKey s.data k })
    else
      let new_access_count := access_count + 1
      let new_expire_time :=
        if 10 < new_access_count then now + s.default_ttl * min 30 new_access_count / 10
        else expire_time
      let s1 := { s with data := eraseKey s.data k ++ [(k, (new_expire_time, value, new_access_count))] }
      let s2 :=
        if s1.last_cleanup + 60 < now then
          { s1 with data := cleanupExpired s1.data now, last_cleanup := now }
        else s1
      (value, s2)

/-- Python `while len(data) >= capacity: popitem(last=False)` (lines 164-165). -/
def evictOldest : List (String × (Nat × PyVal × Nat)) → Nat → List (String × (Nat × PyVal × Nat))
  | [], _ => []
  | kv :: t, cap => if cap ≤ (kv :: t).length then evictOldest t cap else kv :: t

/-- Method `set` (lines 152-167) at clock instant `now`; `ttl = none` means
the Python default argument, so the effective TTL is `default_ttl`. -/
def set (s : SmartTTLCache) (k : String) (value : PyVal) (ttl : Option Nat) (now : Nat) :
    SmartTTLCache :=
  let expire_time := now + (ttl.getD s.default_ttl)
  match lookupKey s.data k with
  | some (_, _, access_count) =>
    { s with data := eraseKey s.data k ++ [(k, (expire_time, value, access_count))] }
  | none =>
    { s with data := evictOldest s.data s.capacity ++ [(k, (expire_time, value, 1))] }

/-- Method `delete` (lines 169-171). -/
def delete (s : SmartTTLCache) (k : String) : SmartTTLCache :=
  { s with data := eraseKey s.data k }

/-- Method `clear` (lines 173-175). -/
def clear (s : SmartTTLCache) : SmartTTLCache :=
  { s with data := [] }

end SmartTTLCache

/-! ## Substring test

Python `path_str in key` is the substring relation; it is implemented here
by structural recursion over character lists. -/

/-- Check that `p` occurs at the very start of `k`. -/
def charsAtStart : List Char → List Char → Bool
  | [], _ => true
  | _ :: _, [] => false
  | a :: asr, b :: bs => a == b && charsAtStart asr bs

/-- Check that `p` occurs somewhere inside `k` (`p in k` in Python). -/
def charsInside (p : List Char) : List Char → Bool
  | [] => charsAtStart p []
  | b :: bs => charsAtStart p (b :: bs) || charsInside p bs

/-- Python `p in k` on strings. -/
def strContains (p k : String) : Bool :=
  charsInside p.toList k.toList

/-! ## CacheManager (src/api/cache_manager.py, lines 209-269) -/

structure CacheManager where
  dir_cache : AdaptiveLRUCache
  thumb_cache : SmartTTLCache
  file_cache : AdaptiveLRUCache
  no_cache_patterns : List String
  operation_count : Nat
deriving DecidableEq

namespace CacheManager

/-- Constructor `CacheManager.__init__` (lines 214-224) at clock instant `t0`. -/
def init (t0 : Nat) : CacheManager :=
  { dir_cache := AdaptiveLRUCache.init 512 1024 t0
    thumb_cache := SmartTTLCache.init 300 2000 t0
    file_cache := AdaptiveLRUCache.init 1024 2048 t0
    no_cache_patterns := ["classification", "images", "labels"]
    operation_count := 0 }

/-- Method `should_cache_dir` (lines 226-229); the path is given as its
forward-slash string form. -/
def should_cache_dir (m : CacheManager) (path_str : String) : Bool :=
  ! m.no_cache_patterns.any (fun pattern => strContains pattern path_str)

/-- One iteration of the deletion loop of `invalidate_path_caches`
(lines 241-244): delete `k` from all three caches. -/
def delAll (m : CacheManager) (k : String) : CacheManager :=
  { m with dir_cache := m.dir_cache.delete k
           thumb_cache := m.thumb_cache.delete k
           file_cache := m.file_cache.delete k }

/-- Method `invalidate_path_caches` (lines 231-244): collect the keys of the
**directory** cache that textually contain `path_str`, then delete each
collected key from all three caches. -/
def invalidate_path_caches (m : CacheManager) (path_str : String) : CacheManager :=
  let keys_to_delete :=
    (m.dir_cache.cache.filter (fun kv => strContains path_str kv.1)).map Prod.fst
  keys_to_delete.foldl delAll m

/-- Method `clear_all_caches` (lines 246-250). -/
def clear_all_caches (m : CacheManager) : CacheManager :=
  { m with dir_cache := m.dir_cache.clear
           thumb_cache := m.thumb_cache.clear
           file_cache := m.file_cache.clear }

/-- Method `increment_operations` (lines 267-269). -/
def increment_operations (m : CacheManager) : CacheManager :=
  { m with operation_count := m.operation_count + 1 }

end CacheManager

/-! ## Operation sequences on an AdaptiveLRUCache

The public operations of the capacity-adaptive cache, for stating
whole-history invariants. -/

inductive LRUOp where
  | getOp (k : String)
  | setOp (k : String) (v : PyVal) (now : Nat)
  | delOp (k : String)
  | clearOp
deriving DecidableEq

/-- Apply one public cache operation (discarding `get`'s returned value). -/
def applyLRUOp (s : AdaptiveLRUCache) : LRUOp → AdaptiveLRUCache
  | .getOp k => (s.get k).2
  | .setOp k v now => s.set k v now
  | .delOp k => s.delete k
  | .clearOp => s.clear

/-- Run a finite sequence of public cache operations. -/
def runLRUOps (s : AdaptiveLRUCache) (ops : List LRUOp) : AdaptiveLRUCache :=
  ops.foldl applyLRUOp s

/-! ## Activity Gate and the background index walker (src/api/main.py)

The gate is the pair of module globals `BACKGROUND_TASKS_PAUSED` and
`USER_ACTIVITY_FLAG` (main.py lines 667-689); the walker is the
per-directory body of the `os.walk` loop in
`build_file_index_background._walk_and_index` (main.py lines 1026-1042). -/

structure ActivityGate where
  background_tasks_paused : Bool
  user_activity_flag : Bool
deriving DecidableEq

/-- Function `set_user_activity` (main.py lines 668-670), run by the
middleware on entry of every foreground request. -/
def set_user_activity (_g : ActivityGate) : ActivityGate :=
  { background_tasks_paused := true, user_activity_flag := true }

/-- Function `clear_user_activity` (main.py lines 672-674). -/
def clear_user_activity (g : ActivityGate) : ActivityGate :=
  { g with user_activity_flag := false }

/-- Task `delayed_background_resume` (main.py lines 685-689): after the
1.5 s grace sleep it unpauses background work and clears the activity flag. -/
def delayed_background_resume (_g : ActivityGate) : ActivityGate :=
  { background_tasks_paused := false, user_activity_flag := false }

/-- One record of the file index (main.py line 1038). -/
structure IndexRec where
  name_lower : String
  size : Nat
  modified : Nat
deriving DecidableEq

/-- The global `FILE_INDEX` dict. -/
abbrev FileIndex := List (String × IndexRec)

/-- Python dict assignment `FILE_INDEX[rel] = rec`: replace in place when the
key exists, append otherwise. -/
def dictSet : FileIndex → String → IndexRec → FileIndex
  | [], k, v => [(k, v)]
  | kv :: t, k, v => if kv.1 = k then (k, v) :: t else kv :: dictSet t k v

/-- `SUPPORTED_EXTENSIONS` (config.py `SUPPORTED_EXTS`, lowercased in
main.py line 247). -/
def SUPPORTED_EXTENSIONS : List String :=
  [".jpg", ".jpeg", ".png", ".bmp", ".tiff", ".tif", ".webp", ".gif"]

/-- One file seen by the walker: `name` is the plain filename `fn`, `ext` is
`os.path.splitext(fn)[1].lower()`, `rel` is the ROOT-relative key when
`relative_to` succeeds, and `statRes` is `(st_size, st_mtime)` when `stat`
succeeds.  Filesystem outcomes are inputs of the model. -/
structure WalkFile where
  name : String
  ext : String
  rel : Option String
  statRes : Option (Nat × Nat)
deriving DecidableEq

/-- Per-file body of the walker's inner loop (main.py lines 1031-1041):
unsupported extensions, `relative_to` failures and `stat` failures are
skipped; otherwise the record is upserted into the index. -/
def indexOneFile (idx : FileIndex) (f : WalkFile) : FileIndex :=
  if ¬ (f.ext ∈ SUPPORTED_EXTENSIONS) then idx
  else
    match f.rel with
    | none => idx
    | some rel =>
      match f.statRes with
      | none => idx
      | some (size, mtime) =>
        dictSet idx rel ⟨String.mk (f.name.toList.map Char.toLower), size, mtime⟩

/-- One iteration of the `os.walk` loop — one directory level — of
`_walk_and_index` (main.py lines 1027-1042).  The first component counts the
0.1 s gate sleeps performed (`if BACKGROUND_TASKS_PAUSED or
USER_ACTIVITY_FLAG: time.sleep(0.1)` — a single conditional sleep, after
which the loop proceeds into the per-file upserts), the second is the
resulting index. -/
def processDirLevel (gate : ActivityGate) (idx : FileIndex) (files : List WalkFile) :
    Nat × FileIndex :=
  let sleeps := if gate.background_tasks_paused || gate.user_activity_flag then 1 else 0
  (sleeps, files.foldl indexOneFile idx)

/-! ## In-flight coalescing of generate_thumbnail (src/api/main.py, lines 1127-1172)

`THUMB_INFLIGHT : Dict[str, asyncio.Future]` maps a thumbnail key to a
shared future; futures live in a store indexed by creation order so that a
waiter and the leader hold the *same* handle.  The two lock-protected
critical sections of `generate_thumbnail` are modelled as the two atomic
operations below. -/

inductive FutState where
  | pending
  | resolvedWith (thumb : String)
deriving DecidableEq

structure GenSys where
  futs : List FutState
  inflight : List (String × Nat)
deriving DecidableEq

/-- Outcome of the body of the `try:` block run by the leader: either the
transform (or the cached re-check) produced the thumbnail path, or an
exception escaped (missing file, decode failure, executor error). -/
inductive GenOutcome where
  | success (thumb : String)
  | failureExc
deriving DecidableEq

/-- What a call learns from the first critical section. -/
inductive EnterResult where
  | leader (fid : Nat)
  | waiter (fid : Nat)
deriving DecidableEq

/-- First critical section of `generate_thumbnail` (main.py lines
1143-1149), under `THUMB_INFLIGHT_LOCK`: if a future for `key` already
exists the caller awaits it (`waiter`); otherwise a fresh pending future is
created and registered and the caller becomes the `leader` that runs the
generation. -/
def enterInflight (sys : GenSys) (key : String) : EnterResult × GenSys :=
  match lookupKey sys.inflight key with
  | some fid => (.waiter fid, sys)
  | none =>
    (.leader sys.futs.length,
     { futs := sys.futs ++ [.pending],
       inflight := sys.inflight ++ [(key, sys.futs.length)] })

/-- Resolve the future `fid` (`fut.set_result(thumb)`). -/
def resolveFut (futs : List FutState) (fid : Nat) (thumb : String) : List FutState :=
  futs.set fid (.resolvedWith thumb)

/-- Completion of the leader's `try`/`finally` (main.py lines 1151-1172).
On success the code calls `fut.set_result(thumb)` and the `finally` pops the
key; on an exception **only** the `finally` runs — the key is popped but the
future is left pending (`fut.set_exception` is never called). -/
def leaderComplete (sys : GenSys) (key : String) (fid : Nat) (out : GenOutcome) : GenSys :=
  match out with
  | .success thumb =>
    { futs := resolveFut sys.futs fid thumb, inflight := eraseKey sys.inflight key }
  | .failureExc =>
    { sys with inflight := eraseKey sys.inflight key }

/-! ## Path resolution (src/api/main.py lines 808-820, src/api/utils.py lines 17-31)

POSIX paths are modelled as lists of components; rendering a component list
produces the string form with a leading slash.  The input of
`safe_resolve_path` is the user path split at slashes (the
`lstrip` of leading slashes corresponds to treating the component list as
relative); `none` models the falsy-`path` early return. -/

/-- Component processing of `os.path.normpath` on a relative path: drop
empty and `.` components, fold interior `..` against the stack, keep
leading `..` components. -/
def normpathComps (comps : List String) : List String :=
  comps.foldl
    (fun acc c =>
      if c = "" ∨ c = "." then acc
      else if c ≠ ".." then acc ++ [c]
      else
        match acc.getLast? with
        | some t => if t ≠ ".." then acc.dropLast else acc ++ [".."]
        | none => acc ++ [".."])
    []

/-- `Path.resolve()` on an absolute component list (no symlinks in the
model): `..` pops one component, the filesystem root absorbs excess `..`. -/
def resolveAbs (comps : List String) : List String :=
  comps.foldl
    (fun acc c =>
      if c = "" ∨ c = "." then acc
      else if c = ".." then acc.dropLast
      else acc ++ [c])
    []

/-- String form of an absolute component list (`str(Path)`). -/
def renderPath (comps : List String) : String :=
  comps.foldl (fun s c => s ++ "/" ++ c) ""

/-- String `startswith` test, by structural recursion on characters:
`strStartsWith s p` is Python `s.startswith(p)`. -/
def strStartsWithChars : List Char → List Char → Bool
  | _, [] => true
  | [], _ :: _ => false
  | a :: asr, b :: bs => a == b && strStartsWithChars asr bs

/-- Python `str(target).startswith(str(root_dir))`. -/
def strStartsWith (s p : String) : Bool :=
  strStartsWithChars s.toList p.toList

/-- Function `safe_resolve_path` (main.py lines 808-820; identical logic in
utils.py lines 17-31): normalize the stripped input, join it under the root,
resolve, and accept iff the resulting string starts with the root's string;
`none` as result models the HTTP 400 `Invalid path` error. -/
def safe_resolve_path (root : List String) (path : Option (List String)) :
    Option (List String) :=
  match path with
  | none => some root
  | some comps =>
    let normalized := normpathComps comps
    let target := resolveAbs (root ++ normalized)
    if strStartsWith (renderPath target) (renderPath root) then some target
    else none

/-- The intended confinement relation: `target` lies under `root` as a path
(component-wise prefix). -/
def underRoot : List String → List String → Bool
  | [], _ => true
  | _ :: _, [] => false
  | r :: rs, t :: ts => r == t && underRoot rs ts

/-! ## ThumbnailService.get_thumbnail_path (src/api/thumbnail_service.py, lines 41-45)

A source file is given by its ROOT-relative path: parent directory
components plus a filename.  `Path.stem` keeps the name up to its last dot,
except that a dot in leading position is part of the stem. -/

/-- Python `Path.stem` of a filename (pathlib: the name up to its last dot,
unless that dot is the first or last character, in which case the stem is
the whole name).  Computed from the reversed name: strip the reversed
extension up to the last dot; keep the name whole when there is no dot, when
the name ends in a dot, or when the dot is leading (a hidden file). -/
def pathStem (name : List Char) : List Char :=
  if name.reverse.head? = some '.' then name
  else if name.reverse.dropWhile (fun x => x != '.') = [] then name
  else if (name.reverse.dropWhile (fun x => x != '.')).tail = [] then name
  else (name.reverse.dropWhile (fun x => x != '.')).tail.reverse

/-- A ROOT-relative source path: directory components and filename. -/
structure RelPath where
  parent : List String
  name : List Char
deriving DecidableEq

/-- Method `ThumbnailService.get_thumbnail_path` (thumbnail_service.py lines
41-45): the artifact lives in `thumbnail_dir / relative_path.parent` and is
named from the *stem* of the source filename, the size, and the configured
format — the source extension does not appear. -/
def get_thumbnail_path (thumbnail_dir : List String) (thumbnail_format : String)
    (rel : RelPath) (size : Nat × Nat) : List String × String :=
  let thumbnail_name :=
    String.mk (pathStem rel.name) ++ "_" ++ toString size.1 ++ "x" ++ toString size.2
      ++ "." ++ String.mk (thumbnail_format.toList.map Char.toLower)
  (thumbnail_dir ++ rel.parent, thumbnail_name)

/-! ## Association-list lemmas -/

theorem lookupKey_eraseKey {α : Type} (l : List (String × α)) (a k : String) :
    lookupKey (eraseKey l a) k = if k = a then none else lookupKey l k := by
  induction l with
  | nil => simp [eraseKey, lookupKey, ite_self]
  | cons kv t ih =>
    by_cases hka : kv.1 = a
    · rw [eraseKey, if_pos hka, ih]
      by_cases hk : k = a
      · simp [hk]
      · have hkvk : ¬ kv.1 = k := fun h => hk (by rw [← h, hka])
        simp [lookupKey, hk, hkvk]
    · rw [eraseKey, if_neg hka, lookupKey]
      by_cases hkvk : kv.1 = k
      · have hk : ¬ k = a := fun h => hka (by rw [hkvk, h])
        simp [lookupKey, hkvk, hk]
      · rw [if_neg hkvk, ih, lookupKey, if_neg hkvk]

theorem lookupKey_eraseKey_self {α : Type} (l : List (String × α)) (k : String) :
    lookupKey (eraseKey l k) k = none := by
  simp [lookupKey_eraseKey]

theorem lookupKey_append {α : Type} (l₁ l₂ : List (String × α)) (k : String) :
    lookupKey (l₁ ++ l₂) k =
      match lookupKey l₁ k with
      | some v => some v
      | none => lookupKey l₂ k := by
  induction l₁ with
  | nil => simp [lookupKey]
  | cons kv t ih =>
    by_cases h : kv.1 = k <;> simp [lookupKey, h, ih]

theorem lookupKey_some_mem {α : Type} (l : List (String × α)) (k : String) (v : α)
    (h : lookupKey l k = some v) : (k, v) ∈ l := by
  induction l with
  | nil => simp [lookupKey] at h
  | cons kv t ih =>
    by_cases hk : kv.1 = k
    · simp [lookupKey, hk] at h
      have hkv : kv = (k, v) := by
        cases kv with
        | mk a b => simp_all
      rw [← hkv]
      exact List.mem_cons_self _ _
    · simp [lookupKey, hk] at h
      exact List.mem_cons_of_mem _ (ih h)

theorem mem_lookupKey_isSome {α : Type} (l : List (String × α)) (k : String) (v : α)
    (h : (k, v) ∈ l) : (lookupKey l k).isSome := by
  induction l with
  | nil => simp at h
  | cons kv t ih =>
    by_cases hk : kv.1 = k
    · simp [lookupKey, hk]
    · rcases List.mem_cons.mp h with h1 | h2
      · rw [← h1] at hk; simp at hk
      · simp [lookupKey, hk]; exact ih h2

theorem eraseKey_length_le {α : Type} (l : List (String × α)) (k : String) :
    (eraseKey l k).length ≤ l.length := by
  induction l with
  | nil => simp [eraseKey]
  | cons kv t ih =>
    by_cases h : kv.1 = k
    · simp [eraseKey, h]; omega
    · simp [eraseKey, h]; omega

theorem eraseKey_length_lt {α : Type} (l : List (String × α)) (k : String)
    (h : (lookupKey l k).isSome) : (eraseKey l k).length < l.length := by
  induction l with
  | nil => simp [lookupKey] at h
  | cons kv t ih =>
    by_cases hk : kv.1 = k
    · have := eraseKey_length_le t k
      simp [eraseKey, hk]
      omega
    · simp [lookupKey, hk] at h
      have := ih h
      simp [eraseKey, hk]
      omega

theorem getLast?_append_singleton {α : Type} (l : List α) (x : α) :
    (l ++ [x]).getLast? = some x := by
  induction l with
  | nil => rfl
  | cons a t ih =>
    rw [List.cons_append, List.getLast?_cons]
    simp [ih]

/-! ## Eviction lemmas for the capacity-adaptive cache -/

namespace AdaptiveLRUCache

theorem evictWhileGe_length_lt (l : List (String × PyVal)) (cap : Nat) (h : 1 ≤ cap) :
    (evictWhileGe l cap).length < cap := by
  induction l with
  | nil => simpa [evictWhileGe] using h
  | cons kv t ih =>
    rw [evictWhileGe]
    by_cases hlen : cap ≤ (kv :: t).length
    · rw [if_pos hlen]; exact ih
    · rw [if_neg hlen]; omega

theorem evictWhileGt_length_le (l : List (String × PyVal)) (cap : Nat) :
    (evictWhileGt l cap).length ≤ cap := by
  induction l with
  | nil => simp [evictWhileGt]
  | cons kv t ih =>
    rw [evictWhileGt]
    by_cases hlen : cap < (kv :: t).length
    · rw [if_pos hlen]; exact ih
    · rw [if_neg hlen]; omega

theorem lookupKey_evictWhileGe_none (l : List (String × PyVal)) (cap : Nat) (k : String)
    (h : lookupKey l k = none) : lookupKey (evictWhileGe l cap) k = none := by
  induction l with
  | nil => simpa [evictWhileGe] using h
  | cons kv t ih =>
    rw [evictWhileGe]
    by_cases hk : kv.1 = k
    · simp [lookupKey, hk] at h
    · simp only [lookupKey, hk, if_false] at h
      by_cases hlen : cap ≤ (kv :: t).length
      · rw [if_pos hlen]; exact ih h
      · rw [if_neg hlen, lookupKey, if_neg hk]; exact h

theorem evictWhileGt_append_singleton (l : List (String × PyVal)) (k : String)
    (v : PyVal) (cap : Nat) (hc : 1 ≤ cap) (hl : lookupKey l k = none) :
    ∃ l', evictWhileGt (l ++ [(k, v)]) cap = l' ++ [(k, v)] ∧ lookupKey l' k = none := by
  induction l with
  | nil =>
    refine ⟨[], ?_, rfl⟩
    rw [List.nil_append, evictWhileGt]
    have hnot : ¬ cap < ([(k, v)] : List (String × PyVal)).length := by
      simp only [List.length_cons, List.length_nil]
      omega
    rw [if_neg hnot]
  | cons kv t ih =>
    by_cases hk : kv.1 = k
    · simp [lookupKey, hk] at hl
    · simp only [lookupKey, hk, if_false] at hl
      rw [List.cons_append, evictWhileGt]
      by_cases hlen : cap < (kv :: (t ++ [(k, v)])).length
      · rw [if_pos hlen]; exact ih hl
      · rw [if_neg hlen]
        exact ⟨kv :: t, by simp, by rw [lookupKey, if_neg hk]; exact hl⟩

theorem current_le_grow (cap : Nat) : cap ≤ cap * 12 / 10 := by
  rw [Nat.le_div_iff_mul_le (by norm_num)]
  omega

/-- Reachability invariant used for the capacity bound: a positive base
capacity, a positive current capacity, and occupancy within capacity. -/
def CapInv (s : AdaptiveLRUCache) : Prop :=
  1 ≤ s.base_capacity ∧ 1 ≤ s.current_capacity ∧ s.cache.length ≤ s.current_capacity

theorem capInv_get (s : AdaptiveLRUCache) (k : String) (h : CapInv s) :
    CapInv (s.get k).2 := by
  obtain ⟨hb, hc, hl⟩ := h
  unfold get
  cases hcase : lookupKey s.cache k with
  | none => exact ⟨hb, hc, hl⟩
  | some v =>
    refine ⟨hb, hc, ?_⟩
    have herase := eraseKey_length_lt s.cache k (by simp [hcase])
    simp only [List.length_append, List.length_cons, List.length_nil]
    omega

theorem capInv_adjust (s : AdaptiveLRUCache) (h : CapInv s) :
    CapInv s.adjust_capacity := by
  obtain ⟨hb, hc, hl⟩ := h
  unfold adjust_capacity
  by_cases h100 : s.hit_count + s.miss_count < 100
  · rw [if_pos h100]; exact ⟨hb, hc, hl⟩
  · rw [if_neg h100]
    by_cases hgrow : 4 * (s.hit_count + s.miss_count) < 5 * s.hit_count ∧
        s.current_capacity < s.max_capacity
    · rw [if_pos hgrow]
      have hkey : s.current_capacity ≤ min s.max_capacity (s.current_capacity * 12 / 10) :=
        le_min (le_of_lt hgrow.2) (current_le_grow _)
      exact ⟨hb, le_trans hc hkey, le_trans hl hkey⟩
    · rw [if_neg hgrow]
      by_cases hshrink : 2 * s.hit_count < s.hit_count + s.miss_count ∧
          s.base_capacity < s.current_capacity
      · rw [if_pos hshrink]
        refine ⟨hb, le_trans hb (le_max_left _ _), ?_⟩
        exact evictWhileGt_length_le s.cache _
      · rw [if_neg hshrink]; exact ⟨hb, hc, hl⟩

theorem capInv_setInsert (s : AdaptiveLRUCache) (k : String) (v : PyVal) (h : CapInv s) :
    CapInv (s.setInsert k v) := by
  obtain ⟨hb, hc, hl⟩ := h
  unfold setInsert
  by_cases hcase : (lookupKey s.cache k).isSome
  · rw [if_pos hcase]
    refine ⟨hb, hc, ?_⟩
    have herase := eraseKey_length_lt s.cache k hcase
    simp only [List.length_append, List.length_cons, List.length_nil]
    omega
  · rw [if_neg hcase]
    refine ⟨hb, hc, ?_⟩
    have hevict := evictWhileGe_length_lt s.cache s.current_capacity hc
    simp only [List.length_append, List.length_cons, List.length_nil]
    omega

theorem capInv_set (s : AdaptiveLRUCache) (k : String) (v : PyVal) (now : Nat)
    (h : CapInv s) : CapInv (s.set k v now) := by
  have h1 := capInv_setInsert s k v h
  unfold set
  by_cases hgate : (s.setInsert k v).last_resize + 30 < now
  · rw [if_pos hgate]
    have h2 := capInv_adjust _ h1
    exact ⟨h2.1, h2.2.1, h2.2.2⟩
  · rw [if_neg hgate]
    exact h1

theorem capInv_applyOp (s : AdaptiveLRUCache) (op : LRUOp) (h : CapInv s) :
    CapInv (applyLRUOp s op) := by
  cases op with
  | getOp k => exact capInv_get s k h
  | setOp k v now => exact capInv_set s k v now h
  | delOp k =>
    obtain ⟨hb, hc, hl⟩ := h
    refine ⟨hb, hc, ?_⟩
    show (eraseKey s.cache k).length ≤ s.current_capacity
    have herase := eraseKey_length_le s.cache k
    omega
  | clearOp =>
    obtain ⟨hb, hc, _⟩ := h
    refine ⟨hb, hc, ?_⟩
    show ([] : List (String × PyVal)).length ≤ s.current_capacity
    simp

theorem capInv_runOps (s : AdaptiveLRUCache) (ops : List LRUOp) (h : CapInv s) :
    CapInv (runLRUOps s ops) := by
  induction ops generalizing s with
  | nil => exact h
  | cons op t ih => exact ih _ (capInv_applyOp s op h)

end AdaptiveLRUCache

/-! ## Structural lemmas about set -/

namespace AdaptiveLRUCache

theorem setInsert_last_resize (s : AdaptiveLRUCache) (k : String) (v : PyVal) :
    (s.setInsert k v).last_resize = s.last_resize := by
  unfold setInsert
  by_cases h : (lookupKey s.cache k).isSome
  · rw [if_pos h]
  · rw [if_neg h]

theorem setInsert_current_capacity (s : AdaptiveLRUCache) (k : String) (v : PyVal) :
    (s.setInsert k v).current_capacity = s.current_capacity := by
  unfold setInsert
  by_cases h : (lookupKey s.cache k).isSome
  · rw [if_pos h]
  · rw [if_neg h]

theorem setInsert_base_capacity (s : AdaptiveLRUCache) (k : String) (v : PyVal) :
    (s.setInsert k v).base_capacity = s.base_capacity := by
  unfold setInsert
  by_cases h : (lookupKey s.cache k).isSome
  · rw [if_pos h]
  · rw [if_neg h]

theorem set_eq (s : AdaptiveLRUCache) (k : String) (v : PyVal) (now : Nat) :
    s.set k v now =
      if s.last_resize + 30 < now then
        { (s.setInsert k v).adjust_capacity with last_resize := now }
      else s.setInsert k v := by
  simp only [set, setInsert_last_resize]

theorem setInsert_shape (s : AdaptiveLRUCache) (k : String) (v : PyVal) :
    ∃ X, (s.setInsert k v).cache = X ++ [(k, v)] ∧ lookupKey X k = none := by
  unfold setInsert
  by_cases h : (lookupKey s.cache k).isSome
  · rw [if_pos h]
    exact ⟨eraseKey s.cache k, rfl, lookupKey_eraseKey_self _ _⟩
  · rw [if_neg h]
    refine ⟨evictWhileGe s.cache s.current_capacity, rfl, ?_⟩
    exact lookupKey_evictWhileGe_none _ _ _ (Option.not_isSome_iff_eq_none.mp h)

theorem adjust_shape (s : AdaptiveLRUCache) (k : String) (v : PyVal) (X : List (String × PyVal))
    (hb : 1 ≤ s.base_capacity) (hX : s.cache = X ++ [(k, v)]) (hn : lookupKey X k = none) :
    ∃ X', s.adjust_capacity.cache = X' ++ [(k, v)] ∧ lookupKey X' k = none := by
  unfold adjust_capacity
  by_cases h100 : s.hit_count + s.miss_count < 100
  · rw [if_pos h100]; exact ⟨X, hX, hn⟩
  · rw [if_neg h100]
    by_cases hgrow : 4 * (s.hit_count + s.miss_count) < 5 * s.hit_count ∧
        s.current_capacity < s.max_capacity
    · rw [if_pos hgrow]; exact ⟨X, hX, hn⟩
    · rw [if_neg hgrow]
      by_cases hshrink : 2 * s.hit_count < s.hit_count + s.miss_count ∧
          s.base_capacity < s.current_capacity
      · rw [if_pos hshrink]
        show ∃ X', evictWhileGt s.cache _ = X' ++ [(k, v)] ∧ lookupKey X' k = none
        rw [hX]
        exact evictWhileGt_append_singleton X k v _ (le_trans hb (le_max_left _ _)) hn
      · rw [if_neg hshrink]; exact ⟨X, hX, hn⟩

theorem set_shape (s : AdaptiveLRUCache) (k : String) (v : PyVal) (now : Nat)
    (hb : 1 ≤ s.base_capacity) :
    ∃ X, (s.set k v now).cache = X ++ [(k, v)] ∧ lookupKey X k = none := by
  rw [set_eq]
  obtain ⟨X, hX, hn⟩ := setInsert_shape s k v
  by_cases hgate : s.last_resize + 30 < now
  · rw [if_pos hgate]
    show ∃ X', (s.setInsert k v).adjust_capacity.cache = X' ++ [(k, v)] ∧ lookupKey X' k = none
    exact adjust_shape _ k v X (by rw [setInsert_base_capacity]; exact hb) hX hn
  · rw [if_neg hgate]
    exact ⟨X, hX, hn⟩

end AdaptiveLRUCache

/-- C5: for every finite sequence of get/set/delete/clear operations on a
capacity-adaptive LRU cache built with a positive base capacity, the number
of stored entries never exceeds the current capacity — in particular across
shrink steps, which evict from the least-recent end down to the new bound. -/
theorem C5_capacity_never_exceeded (base maxc t0 : Nat) (ops : List LRUOp)
    (hb : 1 ≤ base) :
    (runLRUOps (AdaptiveLRUCache.init base maxc t0) ops).cache.length ≤
      (runLRUOps (AdaptiveLRUCache.init base maxc t0) ops).current_capacity :=
  (AdaptiveLRUCache.capInv_runOps _ ops ⟨hb, hb, Nat.zero_le _⟩).2.2

/-- Witness for C5 at the dir-cache construction parameters and a concrete
operation sequence crossing a 30-second resize boundary. -/
theorem C5_capacity_never_exceeded_witness :
    1 ≤ 512 ∧
    (runLRUOps (AdaptiveLRUCache.init 512 1024 0)
        [.setOp "a" (some 1) 0, .setOp "b" (some 2) 40, .getOp "a",
         .delOp "b", .setOp "c" none 80, .clearOp, .setOp "d" (some 4) 120]).cache.length ≤
      (runLRUOps (AdaptiveLRUCache.init 512 1024 0)
        [.setOp "a" (some 1) 0, .setOp "b" (some 2) 40, .getOp "a",
         .delOp "b", .setOp "c" none 80, .clearOp, .setOp "d" (some 4) 120]).current_capacity :=
  ⟨by decide, C5_capacity_never_exceeded 512 1024 0 _ (by decide)⟩

/-- C7: with at least 100 lifetime operations recorded, a hit rate above 0.8
and capacity below the maximum grow capacity to `min max (cap·1.2)`, and a
hit rate below 0.5 and capacity above the base shrink it to
`max base (cap·0.8)` evicting from the least-recent end down to the new
bound; `set` runs the check only when more than 30 seconds passed since the
last resize, restamping the resize clock when it does. -/
theorem C7_hit_rate_adaptation (s : AdaptiveLRUCache) (k : String) (v : PyVal) (now : Nat)
    (h100 : 100 ≤ s.hit_count + s.miss_count) :
    (4 * (s.hit_count + s.miss_count) < 5 * s.hit_count →
      s.current_capacity < s.max_capacity →
      s.adjust_capacity.current_capacity =
        min s.max_capacity (s.current_capacity * 12 / 10)) ∧
    (2 * s.hit_count < s.hit_count + s.miss_count →
      s.base_capacity < s.current_capacity →
      s.adjust_capacity.current_capacity =
        max s.base_capacity (s.current_capacity * 8 / 10) ∧
      s.adjust_capacity.cache =
        AdaptiveLRUCache.evictWhileGt s.cache
          (max s.base_capacity (s.current_capacity * 8 / 10))) ∧
    (¬ s.last_resize + 30 < now →
      (s.set k v now).current_capacity = s.current_capacity ∧
      (s.set k v now).last_resize = s.last_resize) ∧
    (s.last_resize + 30 < now → (s.set k v now).last_resize = now) := by
  have hnot100 : ¬ s.hit_count + s.miss_count < 100 := Nat.not_lt.mpr h100
  refine ⟨?_, ?_, ?_, ?_⟩
  · intro hr hcap
    unfold AdaptiveLRUCache.adjust_capacity
    rw [if_neg hnot100, if_pos ⟨hr, hcap⟩]
  · intro hr hcap
    have hnogrow : ¬ (4 * (s.hit_count + s.miss_count) < 5 * s.hit_count ∧
        s.current_capacity < s.max_capacity) := by
      rintro ⟨ha, -⟩
      omega
    unfold AdaptiveLRUCache.adjust_capacity
    rw [if_neg hnot100, if_neg hnogrow, if_pos ⟨hr, hcap⟩]
    exact ⟨rfl, rfl⟩
  · intro hgate
    rw [AdaptiveLRUCache.set_eq, if_neg hgate]
    exact ⟨AdaptiveLRUCache.setInsert_current_capacity s k v,
           AdaptiveLRUCache.setInsert_last_resize s k v⟩
  · intro hgate
    rw [AdaptiveLRUCache.set_eq, if_pos hgate]

/-- Witness for C7 at a concrete state with 100 recorded operations, 90 of
them hits, capacity 50 between base 10 and max 200, and a set arriving 31
seconds after the last resize. -/
theorem C7_hit_rate_adaptation_witness :
    100 ≤ (⟨10, 200, 50, [], 90, 10, 0⟩ : AdaptiveLRUCache).hit_count +
          (⟨10, 200, 50, [], 90, 10, 0⟩ : AdaptiveLRUCache).miss_count ∧
    ((4 * ((⟨10, 200, 50, [], 90, 10, 0⟩ : AdaptiveLRUCache).hit_count +
           (⟨10, 200, 50, [], 90, 10, 0⟩ : AdaptiveLRUCache).miss_count) <
        5 * (⟨10, 200, 50, [], 90, 10, 0⟩ : AdaptiveLRUCache).hit_count →
      (⟨10, 200, 50, [], 90, 10, 0⟩ : AdaptiveLRUCache).current_capacity <
        (⟨10, 200, 50, [], 90, 10, 0⟩ : AdaptiveLRUCache).max_capacity →
      (⟨10, 200, 50, [], 90, 10, 0⟩ : AdaptiveLRUCache).adjust_capacity.current_capacity =
        min (⟨10, 200, 50, [], 90, 10, 0⟩ : AdaptiveLRUCache).max_capacity
          ((⟨10, 200, 50, [], 90, 10, 0⟩ : AdaptiveLRUCache).current_capacity * 12 / 10)) ∧
    (2 * (⟨10, 200, 50, [], 90, 10, 0⟩ : AdaptiveLRUCache).hit_count <
        (⟨10, 200, 50, [], 90, 10, 0⟩ : AdaptiveLRUCache).hit_count +
        (⟨10, 200, 50, [], 90, 10, 0⟩ : AdaptiveLRUCache).miss_count →
      (⟨10, 200, 50, [], 90, 10, 0⟩ : AdaptiveLRUCache).base_capacity <
        (⟨10, 200, 50, [], 90, 10, 0⟩ : AdaptiveLRUCache).current_capacity →
      (⟨10, 200, 50, [], 90, 10, 0⟩ : AdaptiveLRUCache).adjust_capacity.current_capacity =
        max (⟨10, 200, 50, [], 90, 10, 0⟩ : AdaptiveLRUCache).base_capacity
          ((⟨10, 200, 50, [], 90, 10, 0⟩ : AdaptiveLRUCache).current_capacity * 8 / 10) ∧
      (⟨10, 200, 50, [], 90, 10, 0⟩ : AdaptiveLRUCache).adjust_capacity.cache =
        AdaptiveLRUCache.evictWhileGt (⟨10, 200, 50, [], 90, 10, 0⟩ : AdaptiveLRUCache).cache
          (max (⟨10, 200, 50, [], 90, 10, 0⟩ : AdaptiveLRUCache).base_capacity
            ((⟨10, 200, 50, [], 90, 10, 0⟩ : AdaptiveLRUCache).current_capacity * 8 / 10))) ∧
    (¬ (⟨10, 200, 50, [], 90, 10, 0⟩ : AdaptiveLRUCache).last_resize + 30 < 31 →
      ((⟨10, 200, 50, [], 90, 10, 0⟩ : AdaptiveLRUCache).set "k" none 31).current_capacity =
        (⟨10, 200, 50, [], 90, 10, 0⟩ : AdaptiveLRUCache).current_capacity ∧
      ((⟨10, 200, 50, [], 90, 10, 0⟩ : AdaptiveLRUCache).set "k" none 31).last_resize =
        (⟨10, 200, 50, [], 90, 10, 0⟩ : AdaptiveLRUCache).last_resize) ∧
    ((⟨10, 200, 50, [], 90, 10, 0⟩ : AdaptiveLRUCache).last_resize + 30 < 31 →
      ((⟨10, 200, 50, [], 90, 10, 0⟩ : AdaptiveLRUCache).set "k" none 31).last_resize = 31)) :=
  ⟨by decide, C7_hit_rate_adaptation ⟨10, 200, 50, [], 90, 10, 0⟩ "k" none 31 (by decide)⟩

/-- C10: storing Python `None` under a key makes the next `get` of that key
return `None` — at the public interface the same observable as a miss — yet
the call is counted as a hit and the key keeps the most-recent position. -/
theorem C10_stored_none_indistinguishable (s : AdaptiveLRUCache) (k : String) (now : Nat)
    (hb : 1 ≤ s.base_capacity) :
    ((s.set k none now).get k).1 = none ∧
    ((s.set k none now).get k).2.hit_count = (s.set k none now).hit_count + 1 ∧
    ((s.set k none now).get k).2.cache.getLast? = some (k, none) := by
  obtain ⟨X, hX, hn⟩ := AdaptiveLRUCache.set_shape s k none now hb
  have hlook : lookupKey (s.set k none now).cache k = some none := by
    rw [hX, lookupKey_append, hn]
    simp [lookupKey]
  unfold AdaptiveLRUCache.get
  rw [hlook]
  exact ⟨rfl, rfl, getLast?_append_singleton _ _⟩

/-- Witness for C10 on the file-cache construction parameters. -/
theorem C10_stored_none_indistinguishable_witness :
    1 ≤ (AdaptiveLRUCache.init 1024 2048 0).base_capacity ∧
    ((((AdaptiveLRUCache.init 1024 2048 0).set "x" none 5).get "x").1 = none ∧
     (((AdaptiveLRUCache.init 1024 2048 0).set "x" none 5).get "x").2.hit_count =
       ((AdaptiveLRUCache.init 1024 2048 0).set "x" none 5).hit_count + 1 ∧
     (((AdaptiveLRUCache.init 1024 2048 0).set "x" none 5).get "x").2.cache.getLast? =
       some ("x", none)) :=
  ⟨by decide, C10_stored_none_indistinguishable (AdaptiveLRUCache.init 1024 2048 0) "x" 5 (by decide)⟩

/-- C6 counterexample: in a `SmartTTLCache` holding key `"k"` with recorded
expiry 5, `get` at `now = 5` (the boundary `expiry = now`, where
`expiry > now` is false) returns the stored value — the code's purge test is
`expire_time < now`, so the boundary entry is served, contradicting the
claim that a value is returned only while `expiry > now`. -/
theorem C6_boundary_counterexample :
    lookupKey (⟨300, 2000, [("k", (5, some 7, 1))], 0⟩ : SmartTTLCache).data "k" =
      some (5, some 7, 1) ∧
    ¬ (5 : Nat) > 5 ∧
    ((⟨300, 2000, [("k", (5, some 7, 1))], 0⟩ : SmartTTLCache).get "k" 5).1 = some 7 := by
  decide

/-- C6 amended: the expiring cache's `get` returns the stored value exactly
when the recorded expiry is ≥ `now` (the boundary `expiry = now` IS served);
an entry with `expiry < now` is purged and reported as a miss. -/
theorem C6_expiry_boundary_amended (s : SmartTTLCache) (k : String) (now exp : Nat)
    (v : PyVal) (cnt : Nat) (h : lookupKey s.data k = some (exp, v, cnt)) :
    (now ≤ exp → (s.get k now).1 = v) ∧
    (exp < now → (s.get k now).1 = none ∧ lookupKey (s.get k now).2.data k = none) := by
  unfold SmartTTLCache.get
  rw [h]
  dsimp only
  constructor
  · intro hle
    rw [if_neg (Nat.not_lt.mpr hle)]
  · intro hlt
    rw [if_pos hlt]
    exact ⟨rfl, lookupKey_eraseKey_self _ _⟩

/-- Witness for C6 amended on a concrete one-entry cache, exercised at an
instant before the expiry. -/
theorem C6_expiry_boundary_amended_witness :
    lookupKey (⟨300, 2000, [("a", (10, some 3, 1))], 0⟩ : SmartTTLCache).data "a" =
      some (10, some 3, 1) ∧
    (((7 : Nat) ≤ 10 →
        ((⟨300, 2000, [("a", (10, some 3, 1))], 0⟩ : SmartTTLCache).get "a" 7).1 = some 3) ∧
     ((10 : Nat) < 7 →
        ((⟨300, 2000, [("a", (10, some 3, 1))], 0⟩ : SmartTTLCache).get "a" 7).1 = none ∧
        lookupKey ((⟨300, 2000, [("a", (10, some 3, 1))], 0⟩ : SmartTTLCache).get "a" 7).2.data
          "a" = none)) :=
  ⟨by decide,
   C6_expiry_boundary_amended ⟨300, 2000, [("a", (10, some 3, 1))], 0⟩ "a" 7 10 (some 3) 1
     (by decide)⟩

/-! ## Lemmas on the coordinator's bulk deletion -/

theorem lookupKey_foldl_erase {α : Type} (keys : List String) (l : List (String × α))
    (k : String) :
    lookupKey (keys.foldl eraseKey l) k = if k ∈ keys then none else lookupKey l k := by
  induction keys generalizing l with
  | nil => simp
  | cons a t ih =>
    rw [List.foldl_cons, ih]
    by_cases hk : k = a
    · simp [List.mem_cons, hk, lookupKey_eraseKey]
    · by_cases hmem : k ∈ t
      · simp [List.mem_cons, hk, hmem]
      · simp [List.mem_cons, hk, hmem, lookupKey_eraseKey]

theorem foldl_delAll_dir (keys : List String) (m : CacheManager) :
    (keys.foldl CacheManager.delAll m).dir_cache.cache =
      keys.foldl eraseKey m.dir_cache.cache := by
  induction keys generalizing m with
  | nil => rfl
  | cons a t ih =>
    rw [List.foldl_cons, List.foldl_cons]
    exact ih (CacheManager.delAll m a)

theorem foldl_delAll_thumb (keys : List String) (m : CacheManager) :
    (keys.foldl CacheManager.delAll m).thumb_cache.data =
      keys.foldl eraseKey m.thumb_cache.data := by
  induction keys generalizing m with
  | nil => rfl
  | cons a t ih =>
    rw [List.foldl_cons, List.foldl_cons]
    exact ih (CacheManager.delAll m a)

theorem foldl_delAll_file (keys : List String) (m : CacheManager) :
    (keys.foldl CacheManager.delAll m).file_cache.cache =
      keys.foldl eraseKey m.file_cache.cache := by
  induction keys generalizing m with
  | nil => rfl
  | cons a t ih =>
    rw [List.foldl_cons, List.foldl_cons]
    exact ih (CacheManager.delAll m a)

theorem foldl_delAll_opcount (keys : List String) (m : CacheManager) :
    (keys.foldl CacheManager.delAll m).operation_count = m.operation_count := by
  induction keys generalizing m with
  | nil => rfl
  | cons a t ih =>
    rw [List.foldl_cons]
    exact ih (CacheManager.delAll m a)

theorem mem_invalidate_keys_iff (m : CacheManager) (p k : String) :
    (k ∈ (m.dir_cache.cache.filter (fun kv => strContains p kv.1)).map Prod.fst) ↔
      ∃ v, (k, v) ∈ m.dir_cache.cache ∧ strContains p k = true := by
  constructor
  · intro hk
    obtain ⟨⟨a, b⟩, hx, hxk⟩ := List.mem_map.mp hk
    obtain ⟨hxl, hxf⟩ := List.mem_filter.mp hx
    dsimp at hxk hxf
    subst hxk
    exact ⟨b, hxl, hxf⟩
  · rintro ⟨v, hmem, hcont⟩
    exact List.mem_map.mpr ⟨(k, v), List.mem_filter.mpr ⟨hmem, hcont⟩, rfl⟩

/-- C2 counterexample: a key `"ab"` that contains the path `"a"` and lives
only in the thumbnail cache (the directory cache is empty) survives
`invalidate_path_caches "a"`, because the method collects candidate keys
from the directory cache alone — refuting the claim that every key
containing the path is removed from all three caches. -/
theorem C2_invalidate_counterexample :
    strContains "a" "ab" = true ∧
    lookupKey
      ((⟨AdaptiveLRUCache.init 512 1024 0,
         ⟨300, 2000, [("ab", (100, some 1, 1))], 0⟩,
         AdaptiveLRUCache.init 1024 2048 0,
         ["classification", "images", "labels"], 0⟩ :
        CacheManager).invalidate_path_caches "a").thumb_cache.data "ab" =
      some (100, some 1, 1) := by
  decide

/-- C2 amended: after `invalidate_path_caches p`, (1) no key containing `p`
remains in the directory cache; (2) a key containing `p` that was present in
the directory cache is removed from all three caches; (3) keys not
containing `p` are untouched in all three caches; (4) a key containing `p`
that was absent from the directory cache is untouched in the thumbnail and
file caches — deletion from the thumbnail/file caches happens exactly for
the matching keys found in the directory cache. -/
theorem C2_invalidate_prefix_amended (m : CacheManager) (p k : String) :
    (strContains p k = true →
      lookupKey (m.invalidate_path_caches p).dir_cache.cache k = none) ∧
    (strContains p k = true → (lookupKey m.dir_cache.cache k).isSome →
      lookupKey (m.invalidate_path_caches p).dir_cache.cache k = none ∧
      lookupKey (m.invalidate_path_caches p).thumb_cache.data k = none ∧
      lookupKey (m.invalidate_path_caches p).file_cache.cache k = none) ∧
    (strContains p k = false →
      lookupKey (m.invalidate_path_caches p).dir_cache.cache k =
        lookupKey m.dir_cache.cache k ∧
      lookupKey (m.invalidate_path_caches p).thumb_cache.data k =
        lookupKey m.thumb_cache.data k ∧
      lookupKey (m.invalidate_path_caches p).file_cache.cache k =
        lookupKey m.file_cache.cache k) ∧
    (strContains p k = true → lookupKey m.dir_cache.cache k = none →
      lookupKey (m.invalidate_path_caches p).thumb_cache.data k =
        lookupKey m.thumb_cache.data k ∧
      lookupKey (m.invalidate_path_caches p).file_cache.cache k =
        lookupKey m.file_cache.cache k) := by
  have hdir : (m.invalidate_path_caches p).dir_cache.cache =
      ((m.dir_cache.cache.filter (fun kv => strContains p kv.1)).map Prod.fst).foldl
        eraseKey m.dir_cache.cache :=
    foldl_delAll_dir _ m
  have hthumb : (m.invalidate_path_caches p).thumb_cache.data =
      ((m.dir_cache.cache.filter (fun kv => strContains p kv.1)).map Prod.fst).foldl
        eraseKey m.thumb_cache.data :=
    foldl_delAll_thumb _ m
  have hfile : (m.invalidate_path_caches p).file_cache.cache =
      ((m.dir_cache.cache.filter (fun kv => strContains p kv.1)).map Prod.fst).foldl
        eraseKey m.file_cache.cache :=
    foldl_delAll_file _ m
  refine ⟨?_, ?_, ?_, ?_⟩
  · intro hc
    rw [hdir, lookupKey_foldl_erase]
    by_cases hmem : k ∈ (m.dir_cache.cache.filter (fun kv => strContains p kv.1)).map Prod.fst
    · rw [if_pos hmem]
    · rw [if_neg hmem]
      cases hl : lookupKey m.dir_cache.cache k with
      | none => rfl
      | some v =>
        exact absurd ((mem_invalidate_keys_iff m p k).mpr
          ⟨v, lookupKey_some_mem _ _ _ hl, hc⟩) hmem
  · intro hc hsome
    cases hl : lookupKey m.dir_cache.cache k with
    | none => rw [hl] at hsome; cases hsome
    | some v =>
      have hmem : k ∈ (m.dir_cache.cache.filter (fun kv => strContains p kv.1)).map Prod.fst :=
        (mem_invalidate_keys_iff m p k).mpr ⟨v, lookupKey_some_mem _ _ _ hl, hc⟩
      rw [hdir, hthumb, hfile, lookupKey_foldl_erase, lookupKey_foldl_erase,
          lookupKey_foldl_erase, if_pos hmem, if_pos hmem, if_pos hmem]
      exact ⟨rfl, rfl, rfl⟩
  · intro hc
    have hnm : k ∉ (m.dir_cache.cache.filter (fun kv => strContains p kv.1)).map Prod.fst := by
      intro hmem
      obtain ⟨v, -, hcontr⟩ := (mem_invalidate_keys_iff m p k).mp hmem
      rw [hc] at hcontr
      cases hcontr
    rw [hdir, hthumb, hfile, lookupKey_foldl_erase, lookupKey_foldl_erase,
        lookupKey_foldl_erase, if_neg hnm, if_neg hnm, if_neg hnm]
    exact ⟨rfl, rfl, rfl⟩
  · intro hc hnone
    have hnm : k ∉ (m.dir_cache.cache.filter (fun kv => strContains p kv.1)).map Prod.fst := by
      intro hmem
      obtain ⟨v, hv, -⟩ := (mem_invalidate_keys_iff m p k).mp hmem
      have hsome := mem_lookupKey_isSome _ _ _ hv
      rw [hnone] at hsome
      cases hsome
    rw [hthumb, hfile, lookupKey_foldl_erase, lookupKey_foldl_erase, if_neg hnm, if_neg hnm]
    exact ⟨rfl, rfl⟩

/-- Witness for C2 amended with the path `"a"` and key `"ab"` on a
coordinator holding `"ab"` in all three caches, so the propagation conjunct
applies with its presence hypothesis discharged concretely. -/
theorem C2_invalidate_prefix_amended_witness :
    (strContains "a" "ab" = true →
      lookupKey ((⟨⟨512, 1024, 512, [("ab", some 1)], 0, 0, 0⟩,
          ⟨300, 2000, [("ab", (100, some 2, 1))], 0⟩,
          ⟨1024, 2048, 1024, [("ab", some 3)], 0, 0, 0⟩,
          ["classification", "images", "labels"], 0⟩ :
          CacheManager).invalidate_path_caches "a").dir_cache.cache "ab" = none) ∧
    (strContains "a" "ab" = true →
      (lookupKey (⟨⟨512, 1024, 512, [("ab", some 1)], 0, 0, 0⟩,
          ⟨300, 2000, [("ab", (100, some 2, 1))], 0⟩,
          ⟨1024, 2048, 1024, [("ab", some 3)], 0, 0, 0⟩,
          ["classification", "images", "labels"], 0⟩ :
          CacheManager).dir_cache.cache "ab").isSome →
      lookupKey ((⟨⟨512, 1024, 512, [("ab", some 1)], 0, 0, 0⟩,
          ⟨300, 2000, [("ab", (100, some 2, 1))], 0⟩,
          ⟨1024, 2048, 1024, [("ab", some 3)], 0, 0, 0⟩,
          ["classification", "images", "labels"], 0⟩ :
          CacheManager).invalidate_path_caches "a").dir_cache.cache "ab" = none ∧
      lookupKey ((⟨⟨512, 1024, 512, [("ab", some 1)], 0, 0, 0⟩,
          ⟨300, 2000, [("ab", (100, some 2, 1))], 0⟩,
          ⟨1024, 2048, 1024, [("ab", some 3)], 0, 0, 0⟩,
          ["classification", "images", "labels"], 0⟩ :
          CacheManager).invalidate_path_caches "a").thumb_cache.data "ab" = none ∧
      lookupKey ((⟨⟨512, 1024, 512, [("ab", some 1)], 0, 0, 0⟩,
          ⟨300, 2000, [("ab", (100, some 2, 1))], 0⟩,
          ⟨1024, 2048, 1024, [("ab", some 3)], 0, 0, 0⟩,
          ["classification", "images", "labels"], 0⟩ :
          CacheManager).invalidate_path_caches "a").file_cache.cache "ab" = none) ∧
    (strContains "a" "ab" = false →
      lookupKey ((⟨⟨512, 1024, 512, [("ab", some 1)], 0, 0, 0⟩,
          ⟨300, 2000, [("ab", (100, some 2, 1))], 0⟩,
          ⟨1024, 2048, 1024, [("ab", some 3)], 0, 0, 0⟩,
          ["classification", "images", "labels"], 0⟩ :
          CacheManager).invalidate_path_caches "a").dir_cache.cache "ab" =
        lookupKey (⟨⟨512, 1024, 512, [("ab", some 1)], 0, 0, 0⟩,
          ⟨300, 2000, [("ab", (100, some 2, 1))], 0⟩,
          ⟨1024, 2048, 1024, [("ab", some 3)], 0, 0, 0⟩,
          ["classification", "images", "labels"], 0⟩ :
          CacheManager).dir_cache.cache "ab" ∧
      lookupKey ((⟨⟨512, 1024, 512, [("ab", some 1)], 0, 0, 0⟩,
          ⟨300, 2000, [("ab", (100, some 2, 1))], 0⟩,
          ⟨1024, 2048, 1024, [("ab", some 3)], 0, 0, 0⟩,
          ["classification", "images", "labels"], 0⟩ :
          CacheManager).invalidate_path_caches "a").thumb_cache.data "ab" =
        lookupKey (⟨⟨512, 1024, 512, [("ab", some 1)], 0, 0, 0⟩,
          ⟨300, 2000, [("ab", (100, some 2, 1))], 0⟩,
          ⟨1024, 2048, 1024, [("ab", some 3)], 0, 0, 0⟩,
          ["classification", "images", "labels"], 0⟩ :
          CacheManager).thumb_cache.data "ab" ∧
      lookupKey ((⟨⟨512, 1024, 512, [("ab", some 1)], 0, 0, 0⟩,
          ⟨300, 2000, [("ab", (100, some 2, 1))], 0⟩,
          ⟨1024, 2048, 1024, [("ab", some 3)], 0, 0, 0⟩,
          ["classification", "images", "labels"], 0⟩ :
          CacheManager).invalidate_path_caches "a").file_cache.cache "ab" =
        lookupKey (⟨⟨512, 1024, 512, [("ab", some 1)], 0, 0, 0⟩,
          ⟨300, 2000, [("ab", (100, some 2, 1))], 0⟩,
          ⟨1024, 2048, 1024, [("ab", some 3)], 0, 0, 0⟩,
          ["classification", "images", "labels"], 0⟩ :
          CacheManager).file_cache.cache "ab") ∧
    (strContains "a" "ab" = true →
      lookupKey (⟨⟨512, 1024, 512, [("ab", some 1)], 0, 0, 0⟩,
          ⟨300, 2000, [("ab", (100, some 2, 1))], 0⟩,
          ⟨1024, 2048, 1024, [("ab", some 3)], 0, 0, 0⟩,
          ["classification", "images", "labels"], 0⟩ :
          CacheManager).dir_cache.cache "ab" = none →
      lookupKey ((⟨⟨512, 1024, 512, [("ab", some 1)], 0, 0, 0⟩,
          ⟨300, 2000, [("ab", (100, some 2, 1))], 0⟩,
          ⟨1024, 2048, 1024, [("ab", some 3)], 0, 0, 0⟩,
          ["classification", "images", "labels"], 0⟩ :
          CacheManager).invalidate_path_caches "a").thumb_cache.data "ab" =
        lookupKey (⟨⟨512, 1024, 512, [("ab", some 1)], 0, 0, 0⟩,
          ⟨300, 2000, [("ab", (100, some 2, 1))], 0⟩,
          ⟨1024, 2048, 1024, [("ab", some 3)], 0, 0, 0⟩,
          ["classification", "images", "labels"], 0⟩ :
          CacheManager).thumb_cache.data "ab" ∧
      lookupKey ((⟨⟨512, 1024, 512, [("ab", some 1)], 0, 0, 0⟩,
          ⟨300, 2000, [("ab", (100, some 2, 1))], 0⟩,
          ⟨1024, 2048, 1024, [("ab", some 3)], 0, 0, 0⟩,
          ["classification", "images", "labels"], 0⟩ :
          CacheManager).invalidate_path_caches "a").file_cache.cache "ab" =
        lookupKey (⟨⟨512, 1024, 512, [("ab", some 1)], 0, 0, 0⟩,
          ⟨300, 2000, [("ab", (100, some 2, 1))], 0⟩,
          ⟨1024, 2048, 1024, [("ab", some 3)], 0, 0, 0⟩,
          ["classification", "images", "labels"], 0⟩ :
          CacheManager).file_cache.cache "ab") :=
  C2_invalidate_prefix_amended
    ⟨⟨512, 1024, 512, [("ab", some 1)], 0, 0, 0⟩,
     ⟨300, 2000, [("ab", (100, some 2, 1))], 0⟩,
     ⟨1024, 2048, 1024, [("ab", some 3)], 0, 0, 0⟩,
     ["classification", "images", "labels"], 0⟩ "a" "ab"

/-- C8 counterexample: `clear_all_caches` on a fresh coordinator leaves the
operation counter at 0 instead of incrementing it to 1, refuting the claim
that every mutating coordinator call bumps the counter by exactly one. -/
theorem C8_opcount_counterexample :
    ((CacheManager.init 0).clear_all_caches).operation_count = 0 ∧
    ¬ ((CacheManager.init 0).clear_all_caches).operation_count =
        (CacheManager.init 0).operation_count + 1 := by
  decide

/-- C8 amended: `invalidate_path_caches` and `clear_all_caches` leave the
global operation counter unchanged; the counter is incremented (by exactly
one) only by the explicit `increment_operations` call, which callers such as
the directory-listing service issue separately. -/
theorem C8_operation_counter_amended (m : CacheManager) (p : String) :
    (m.invalidate_path_caches p).operation_count = m.operation_count ∧
    (m.clear_all_caches).operation_count = m.operation_count ∧
    (m.increment_operations).operation_count = m.operation_count + 1 :=
  ⟨foldl_delAll_opcount _ m, rfl, rfl⟩

/-- C3 counterexample: with the Activity Gate fully active
(`BACKGROUND_TASKS_PAUSED` and `USER_ACTIVITY_FLAG` both set), one walker
directory iteration over a single supported file still performs its upsert —
the walker sleeps 0.1 s once and proceeds, so the number of upserts during
an active gate is not zero. -/
theorem C3_gate_counterexample :
    (⟨true, true⟩ : ActivityGate).background_tasks_paused = true ∧
    (processDirLevel ⟨true, true⟩ []
        [⟨"b.png", ".png", some "a/b.png", some (100, 5)⟩]).2 =
      [("a/b.png", ⟨"b.png", 100, 5⟩)] := by
  decide

/-- C3 amended: the walker never suppresses upserts — each directory-level
iteration produces exactly the same index updates whether the gate is active
or not; an active gate only adds a single 0.1 s sleep before the directory
is processed (there is no recheck loop), and after `delayed_background_resume`
clears the gate the pacing sleep also disappears. -/
theorem C3_gate_only_paces_amended (g : ActivityGate) (idx : FileIndex)
    (files : List WalkFile) :
    (processDirLevel g idx files).2 =
      (processDirLevel ⟨false, false⟩ idx files).2 ∧
    (processDirLevel g idx files).1 =
      (if g.background_tasks_paused || g.user_activity_flag then 1 else 0) ∧
    (processDirLevel (delayed_background_resume g) idx files).1 = 0 :=
  ⟨rfl, rfl, rfl⟩

/-- C1: two concurrent `generate_thumbnail` calls for the same key coalesce
(the first becomes the leader that runs the single transform, the second
becomes a waiter on the same shared future), and when the leader's transform
raises, the `finally` block removes the key from the in-flight map — but the
shared future is left pending (`set_exception` is never called), so the
waiter never observes the error. -/
theorem C1_error_leaves_future_pending :
    (enterInflight ⟨[], []⟩ "thumb|512x512").1 = .leader 0 ∧
    (enterInflight (enterInflight ⟨[], []⟩ "thumb|512x512").2 "thumb|512x512").1 =
      .waiter 0 ∧
    (leaderComplete (enterInflight (enterInflight ⟨[], []⟩ "thumb|512x512").2
        "thumb|512x512").2 "thumb|512x512" 0 .failureExc).inflight = [] ∧
    (leaderComplete (enterInflight (enterInflight ⟨[], []⟩ "thumb|512x512").2
        "thumb|512x512").2 "thumb|512x512" 0 .failureExc).futs = [.pending] := by
  decide

/-- C4: `safe_resolve_path` with root `/data/root` accepts the input
`../rootx` and returns `/data/rootx` — a sibling directory outside the root
whose name merely extends the root's name as a string — because the
confinement check is a textual `startswith` on the rendered paths.  The
claim that every returned path lies under the root is violated. -/
theorem C4_prefix_escape :
    safe_resolve_path ["data", "root"] (some ["..", "rootx"]) =
      some ["data", "rootx"] ∧
    underRoot ["data", "root"] ["data", "rootx"] = false := by
  decide

/-! ## Stem lemmas for the thumbnail path -/

theorem dropWhile_bne_append (l1 l2 : List Char)
    (h : ∀ a ∈ l1, (a != '.') = true) :
    (l1 ++ l2).dropWhile (fun x => x != '.') = l2.dropWhile (fun x => x != '.') := by
  induction l1 with
  | nil => rfl
  | cons a t ih =>
    rw [List.cons_append]
    have ha : (a != '.') = true := h a (List.mem_cons_self _ _)
    simp only [List.dropWhile, ha]
    exact ih (fun b hb => h b (List.mem_cons_of_mem _ hb))

theorem dropWhile_bne_dot_cons (l : List Char) :
    ('.' :: l).dropWhile (fun x => x != '.') = '.' :: l := by
  simp [List.dropWhile]

theorem pathStem_ext (s e : List Char) (hs : s ≠ []) (he : e ≠ [])
    (hd : ∀ c ∈ e, c ≠ '.') : pathStem (s ++ '.' :: e) = s := by
  have hrev : (s ++ '.' :: e).reverse = e.reverse ++ '.' :: s.reverse := by
    rw [List.reverse_append, List.reverse_cons, List.append_assoc]
    rfl
  cases hrev2 : e.reverse with
  | nil => exact absurd (List.reverse_eq_nil_iff.mp hrev2) he
  | cons c rest =>
    have hc : c ≠ '.' := by
      apply hd
      rw [← List.mem_reverse, hrev2]
      exact List.mem_cons_self _ _
    have hall : ∀ a ∈ c :: rest, (a != '.') = true := by
      intro a ha
      rw [← hrev2, List.mem_reverse] at ha
      simp [hd a ha]
    have hhead : (s ++ '.' :: e).reverse.head? = some c := by
      rw [hrev, hrev2, List.cons_append, List.head?_cons]
    have hdrop : (s ++ '.' :: e).reverse.dropWhile (fun x => x != '.') =
        '.' :: s.reverse := by
      rw [hrev, hrev2, dropWhile_bne_append _ _ hall, dropWhile_bne_dot_cons]
    unfold pathStem
    rw [hhead, hdrop]
    rw [if_neg (fun hcon => hc (Option.some.inj hcon))]
    rw [if_neg (by simp : ¬ ('.' :: s.reverse : List Char) = [])]
    rw [List.tail_cons]
    rw [if_neg (by simp [List.reverse_eq_nil_iff, hs] : ¬ s.reverse = [])]
    exact List.reverse_reverse s

/-- C9: two distinct source files in the same directory whose filename stems
agree but whose (dot-free, nonempty) extensions differ are mapped by
`ThumbnailService.get_thumbnail_path` to the *same* thumbnail location for
every size — the derived name is built from the stem only, so the two
artifacts overwrite each other. -/
theorem C9_thumbnail_path_collision (thumb_dir : List String) (fmt : String)
    (parent : List String) (s e1 e2 : List Char) (w h : Nat)
    (hs : s ≠ []) (he1 : e1 ≠ []) (he2 : e2 ≠ [])
    (hd1 : ∀ c ∈ e1, c ≠ '.') (hd2 : ∀ c ∈ e2, c ≠ '.') (hne : e1 ≠ e2) :
    get_thumbnail_path thumb_dir fmt ⟨parent, s ++ '.' :: e1⟩ (w, h) =
      get_thumbnail_path thumb_dir fmt ⟨parent, s ++ '.' :: e2⟩ (w, h) ∧
    (⟨parent, s ++ '.' :: e1⟩ : RelPath) ≠ ⟨parent, s ++ '.' :: e2⟩ := by
  constructor
  · unfold get_thumbnail_path
    dsimp only
    rw [pathStem_ext s e1 hs he1 hd1, pathStem_ext s e2 hs he2 hd2]
  · intro hcontra
    apply hne
    have hname : s ++ '.' :: e1 = s ++ '.' :: e2 := congrArg RelPath.name hcontra
    have := List.append_cancel_left hname
    exact List.tail_eq_of_cons_eq this

/-- Witness for C9: `a/b.png` and `a/b.jpg` at size 512×512 share one
thumbnail path while being distinct source files. -/
theorem C9_thumbnail_path_collision_witness :
    (['b'] : List Char) ≠ [] ∧
    get_thumbnail_path ["thumbnails"] "WEBP" ⟨["a"], ['b'] ++ '.' :: ['p', 'n', 'g']⟩
        (512, 512) =
      get_thumbnail_path ["thumbnails"] "WEBP" ⟨["a"], ['b'] ++ '.' :: ['j', 'p', 'g']⟩
        (512, 512) ∧
    (⟨["a"], ['b'] ++ '.' :: ['p', 'n', 'g']⟩ : RelPath) ≠
      ⟨["a"], ['b'] ++ '.' :: ['j', 'p', 'g']⟩ :=
  ⟨by decide,
   C9_thumbnail_path_collision ["thumbnails"] "WEBP" ["a"] ['b'] ['p', 'n', 'g']
     ['j', 'p', 'g'] 512 512 (by decide) (by decide) (by decide) (by decide) (by decide)
     (by decide)⟩
